import Mathlib

/-!
Verification development for the ComplexPlot repository's math core
(`src/math/evaluator.ts`, `src/math/parser.ts`).

Modelling conventions.
JavaScript numbers are modelled by `FV`: either a finite real (`FV.fin x`,
an idealisation of a finite 64-bit float, with exact real arithmetic and
hence no overflow) or a non-finite value (`FV.nonfin`, collapsing `NaN`,
`Infinity` and `-Infinity`, which the source only ever inspects through
`isFinite`).  Arithmetic on `FV` propagates non-finiteness, mirroring
IEEE-754 propagation of NaN/Infinity through the operations the source
performs; division by zero produces a non-finite value, as in JavaScript.

The mathjs library is not part of the repository's sources.  Its
`compile(...).evaluate(scope)` pipeline is modelled by an opaque
environment `MathjsEnv`: `compileT s` is the compiled form of the string
`s` when evaluated with a scope binding `t` (a real parameter), `compileZ s`
the compiled form evaluated with a scope binding `z` (a complex point), and
`parseNode` the mathjs parser.  `none` models a thrown exception, both for
compilation and for a single evaluation.  Where a claim depends on the
internal semantics of mathjs evaluation (claim about expressions with no
free-variable occurrence), the AST and evaluator are modelled from the
spec; those definitions carry a `Modelled from the spec:` doc comment.
-/

namespace ComplexPlot

/-- A JavaScript number: a finite real, or a non-finite value (NaN or
±Infinity, collapsed into one constructor; the source only distinguishes
them through `isFinite`). -/
inductive FV where
  | fin (x : ℝ)
  | nonfin

/-- JavaScript's `isFinite` on an `FV`. -/
def FV.isFinite : FV → Bool
  | .fin _ => true
  | .nonfin => false

/-- Addition of JS numbers: finite + finite is finite (exact-arithmetic
idealisation, no overflow); any non-finite operand gives a non-finite
result. -/
def FV.add : FV → FV → FV
  | .fin a, .fin b => .fin (a + b)
  | _, _ => .nonfin

/-- Subtraction of JS numbers, with the same conventions as `FV.add`. -/
def FV.sub : FV → FV → FV
  | .fin a, .fin b => .fin (a - b)
  | _, _ => .nonfin

/-- Multiplication of JS numbers, with the same conventions as `FV.add`. -/
def FV.mul : FV → FV → FV
  | .fin a, .fin b => .fin (a * b)
  | _, _ => .nonfin

/-- Multiplication of a JS number by a (finite) real scalar coming from the
configuration arithmetic. -/
def FV.mulR : FV → ℝ → FV
  | .fin a, c => .fin (a * c)
  | .nonfin, _ => .nonfin

/-- Division of a JS number by a (finite) real scalar. Division by zero
yields a non-finite value (`±Infinity` or `NaN` in JavaScript). -/
noncomputable def FV.divR : FV → ℝ → FV
  | .fin a, c => if c = 0 then .nonfin else .fin (a / c)
  | .nonfin, _ => .nonfin

/-- The `ComplexPoint` record of `src/types`: a pair of JS numbers. -/
structure ComplexPoint where
  re : FV
  im : FV

/-- Both components finite: the test
`isFinite(point.re) && isFinite(point.im)` used throughout the source. -/
def ComplexPoint.isFiniteP (p : ComplexPoint) : Bool :=
  p.re.isFinite && p.im.isFinite

/-- `complexMultiply` from `evaluator.ts`:
`(a.re*b.re - a.im*b.im, a.re*b.im + a.im*b.re)`. -/
def complexMultiply (a b : ComplexPoint) : ComplexPoint :=
  { re := (a.re.mul b.re).sub (a.im.mul b.im)
    im := (a.re.mul b.im).add (a.im.mul b.re) }

/-- `complexAdd` from `evaluator.ts`: componentwise addition. -/
def complexAdd (a b : ComplexPoint) : ComplexPoint :=
  { re := a.re.add b.re, im := a.im.add b.im }

/-- `complexScale` from `evaluator.ts`: scale both components by a real
scalar. -/
def complexScale (a : ComplexPoint) (scalar : ℝ) : ComplexPoint :=
  { re := a.re.mulR scalar, im := a.im.mulR scalar }

/-- The zero complex point `{ re: 0, im: 0 }`. -/
def zeroCP : ComplexPoint := { re := .fin 0, im := .fin 0 }

/-- The two-argument arctangent `Math.atan2(y, x)` of the JavaScript
platform (not part of the repository's sources), on real arguments; the
real model has no signed zero, so `atan2 0 x` for `x < 0` is `π`. -/
noncomputable def atan2 (y x : ℝ) : ℝ :=
  if 0 < x then Real.arctan (y / x)
  else if x < 0 then
    (if 0 ≤ y then Real.arctan (y / x) + Real.pi else Real.arctan (y / x) - Real.pi)
  else
    (if 0 < y then Real.pi / 2 else if y < 0 then -(Real.pi / 2) else 0)

/-- `modulus` from `evaluator.ts`: `Math.sqrt(re*re + im*im)`; non-finite
on a non-finite input component. -/
noncomputable def modulus (point : ComplexPoint) : FV :=
  match point.re, point.im with
  | .fin a, .fin b => .fin (Real.sqrt (a * a + b * b))
  | _, _ => .nonfin

/-- `argument` from `evaluator.ts`: `Math.atan2(point.im, point.re)`;
non-finite on a non-finite input component (NaN propagation; the model
collapses the Infinity cases of `Math.atan2` into non-finite as well). -/
noncomputable def argument (point : ComplexPoint) : FV :=
  match point.re, point.im with
  | .fin a, .fin b => .fin (atan2 b a)
  | _, _ => .nonfin

/-- `getColorValue` from `evaluator.ts`: select a scalar projection of a
complex point; the default branch of the `switch` is `modulus`. -/
noncomputable def getColorValue (point : ComplexPoint) (colorBy : String) : FV :=
  match colorBy with
  | "modulus" => modulus point
  | "argument" => argument point
  | "real" => point.re
  | "imaginary" => point.im
  | _ => modulus point

/-- The source's blank-input test `!expr || expr.trim() === ''`: the string
trims to the empty string exactly when every character is whitespace, which
is the form used here because it is structurally computable. -/
def isBlank (s : String) : Bool := s.data.all Char.isWhitespace

/-! ## Spec-modelled mathjs expression AST and evaluator

The mathjs parser/compiler/evaluator is a third-party library, not part of
`src/`.  The definitions in this section are modelled from the spec
(sections 3 and 4.3) and are only used to settle the claim about
expressions with no free-variable occurrence. -/

mutual
/-- Modelled from the spec: the `ExpressionNode` tagged variant of section 3
(`NumberLiteral`, `Constant(name)`, `Variable(name)`, `UnaryOp(op, operand)`,
`BinaryOp(op, left, right)`, `Call(funcName, args)`); the argument list is a
mutually inductive list so that structural recursion is available. -/
inductive ExpressionNode where
  | num (value : ℝ)
  | const (name : String)
  | var (name : String)
  | unaryOp (op : String) (operand : ExpressionNode)
  | binaryOp (op : String) (left right : ExpressionNode)
  | call (funcName : String) (args : ExprList)
/-- Modelled from the spec: a list of argument expressions. -/
inductive ExprList where
  | nil
  | cons (head : ExpressionNode) (tail : ExprList)
end

mutual
/-- Whether the variable named `v` occurs in an expression node. -/
def occursIn (v : String) : ExpressionNode → Bool
  | .num _ => false
  | .const _ => false
  | .var n => n == v
  | .unaryOp _ a => occursIn v a
  | .binaryOp _ a b => occursIn v a || occursIn v b
  | .call _ args => occursInList v args
/-- Whether the variable named `v` occurs in an argument list. -/
def occursInList (v : String) : ExprList → Bool
  | .nil => false
  | .cons a rest => occursIn v a || occursInList v rest
end

/-- Modelled from the spec: an evaluation value is either a complex number
or the invalid sentinel that propagates through arithmetic (section 4.3,
NaN-style propagation). -/
inductive CVal where
  | val (z : ℂ)
  | invalid

/-- Modelled from the spec: the reserved constants `i`, `pi`, `e`
(section 3, EvaluationScope), always available. -/
noncomputable def constTable : String → Option CVal
  | "i" => some (.val Complex.I)
  | "pi" => some (.val (Real.pi : ℂ))
  | "e" => some (.val (Real.exp 1 : ℂ))
  | _ => none

/-- Modelled from the spec: unary operators (section 4.1 lists unary
negation); an unknown operator is an evaluation error (`none`); the
invalid sentinel propagates. -/
def applyUnary (op : String) (a : CVal) : Option CVal :=
  match op with
  | "-" => match a with
    | .val x => some (.val (-x))
    | .invalid => some .invalid
  | "+" => some a
  | _ => none

/-- Modelled from the spec: binary operators of section 4.3.  `+`, `-`
componentwise; `*` complex multiplication; `/` complex division with
division by zero yielding the invalid sentinel; `^` the principal-branch
power `exp(w log z)` with the conventions `0^0 = 1` and `0^w = 0` for
`w ≠ 0` (which is `Complex.cpow`).  An unknown operator is an evaluation
error; the invalid sentinel propagates. -/
noncomputable def applyBinary (op : String) (a b : CVal) : Option CVal :=
  match op with
  | "+" => match a, b with
    | .val x, .val y => some (.val (x + y))
    | _, _ => some .invalid
  | "-" => match a, b with
    | .val x, .val y => some (.val (x - y))
    | _, _ => some .invalid
  | "*" => match a, b with
    | .val x, .val y => some (.val (x * y))
    | _, _ => some .invalid
  | "/" => match a, b with
    | .val x, .val y => if y = 0 then some .invalid else some (.val (x / y))
    | _, _ => some .invalid
  | "^" => match a, b with
    | .val x, .val y => some (.val (Complex.cpow x y))
    | _, _ => some .invalid
  | _ => none

/-- Modelled from the spec: the unary elementary functions of section 4.3,
complex-domain extensions with principal branches; `log` of zero yields the
invalid sentinel; an unknown name is an evaluation error; the invalid
sentinel propagates. -/
noncomputable def applyFn (name : String) (a : CVal) : Option CVal :=
  match name with
  | "sin" => match a with
    | .val x => some (.val (Complex.sin x))
    | .invalid => some .invalid
  | "cos" => match a with
    | .val x => some (.val (Complex.cos x))
    | .invalid => some .invalid
  | "tan" => match a with
    | .val x => some (.val (Complex.tan x))
    | .invalid => some .invalid
  | "exp" => match a with
    | .val x => some (.val (Complex.exp x))
    | .invalid => some .invalid
  | "log" => match a with
    | .val x => if x = 0 then some .invalid else some (.val (Complex.log x))
    | .invalid => some .invalid
  | "ln" => match a with
    | .val x => if x = 0 then some .invalid else some (.val (Complex.log x))
    | .invalid => some .invalid
  | "sqrt" => match a with
    | .val x => some (.val (Complex.cpow x (1 / 2 : ℂ)))
    | .invalid => some .invalid
  | "abs" => match a with
    | .val x => some (.val (Complex.abs x : ℂ))
    | .invalid => some .invalid
  | _ => none

/-- Modelled from the spec: apply a called function to its evaluated
arguments; all exposed functions are unary, so a wrong argument count is an
evaluation error (section 4.3). -/
noncomputable def applyCall (name : String) (args : List CVal) : Option CVal :=
  match args with
  | [x] => applyFn name x
  | _ => none

mutual
/-- Modelled from the spec: recursive reduction of an expression tree
against a scope (section 4.3).  Identifiers are looked up in the scope
first and fall back to the reserved-constant table; an unknown identifier
is an evaluation error.  `none` models a thrown `EvaluationError`. -/
noncomputable def evalNode (scope : String → Option CVal) : ExpressionNode → Option CVal
  | .num v => some (.val (v : ℂ))
  | .const n => constTable n
  | .var n =>
    match scope n with
    | some x => some x
    | none => constTable n
  | .unaryOp op a =>
    match evalNode scope a with
    | some x => applyUnary op x
    | none => none
  | .binaryOp op a b =>
    match evalNode scope a with
    | some x =>
      match evalNode scope b with
      | some y => applyBinary op x y
      | none => none
    | none => none
  | .call f args =>
    match evalArgs scope args with
    | some xs => applyCall f xs
    | none => none
/-- Modelled from the spec: evaluate an argument list left to right,
stopping at the first evaluation error. -/
noncomputable def evalArgs (scope : String → Option CVal) : ExprList → Option (List CVal)
  | .nil => some []
  | .cons a rest =>
    match evalNode scope a with
    | some x =>
      match evalArgs scope rest with
      | some xs => some (x :: xs)
      | none => none
    | none => none
end

/-- Convert a `ComplexPoint` binding into an evaluation value: a point with
a non-finite component behaves like the invalid sentinel. -/
def toCVal (p : ComplexPoint) : CVal :=
  match p.re, p.im with
  | .fin a, .fin b => .val ⟨a, b⟩
  | _, _ => .invalid

/-- Convert an evaluation value back into a `ComplexPoint`
(`toComplexPoint` in `evaluator.ts`); the invalid sentinel is a NaN-bearing
pair, hence non-finite components. -/
def cvalToPoint : CVal → ComplexPoint
  | .val z => { re := .fin z.re, im := .fin z.im }
  | .invalid => { re := .nonfin, im := .nonfin }

/-- The `ParsedExpression` record of `parser.ts`: the parsed node and the
name of its free variable (source field `variable`, a Lean keyword, hence
`varName`); the `compiled` field's behaviour is modelled by `evalNode` on
`node`. -/
structure ParsedExpression where
  node : ExpressionNode
  varName : String

/-- `evaluateAt` from `evaluator.ts`: build the scope binding only the
compiled expression's variable to the point, evaluate, convert the result;
any evaluation error yields `null` (here `none`). -/
noncomputable def evaluateAt (compiled : ParsedExpression) (point : ComplexPoint) :
    Option ComplexPoint :=
  match evalNode (fun n => if n = compiled.varName then some (toCVal point) else none)
      compiled.node with
  | some v => some (cvalToPoint v)
  | none => none

/-! ## The opaque mathjs boundary -/

/-- A compiled expression evaluated with a scope binding the real parameter
`t` (plus the constants `i`, `pi`, `e`); `none` models a thrown evaluation
error. -/
abbrev TClos : Type := ℝ → Option ComplexPoint

/-- A compiled expression evaluated with a scope binding the complex
variable `z` (plus the constants `i`, `pi`, `e`); `none` models a thrown
evaluation error. -/
abbrev ZClos : Type := ComplexPoint → Option ComplexPoint

/-- The mathjs library boundary: `parseNode` is `parse`, and `compileT` /
`compileZ` are `compile` as used with a `t`-scope respectively a `z`-scope;
`none` models a thrown exception at compile time. -/
structure MathjsEnv where
  parseNode : String → Option ExpressionNode
  compileT : String → Option TClos
  compileZ : String → Option ZClos

/-! ## parser.ts -/

/-- `parseExpression` from `parser.ts`: empty or whitespace-only input
short-circuits to `null` before the parser runs; a parse error is caught
and also yields `null`.  The `_variable` parameter of the source is unused
there and omitted here. -/
def parseExpression (env : MathjsEnv) (expr : String) : Option ExpressionNode :=
  if isBlank expr then none
  else env.parseNode expr

/-- `isValidExpression` from `parser.ts`: `true` exactly when `parse` does
not throw. -/
def isValidExpression (env : MathjsEnv) (expr : String) : Bool :=
  (env.parseNode expr).isSome

/-! ## evaluator.ts: contour sampling -/

/-- One iteration body of the sampling loop of `evaluateSingleContour`,
viewed as a partial sample: evaluate `γ(t)`; apply the transform if
present; keep the point only when its final value has finite components.
`none` means the iteration pushes nothing (a thrown evaluation anywhere in
the iteration's `try` block, or a non-finite final value). -/
def contourStep (compiled : TClos) (compiledTransform : Option ZClos) (t : ℝ) :
    Option ComplexPoint :=
  match compiled t with
  | none => none
  | some gammaResult =>
    match compiledTransform with
    | none => if gammaResult.isFiniteP then some gammaResult else none
    | some f =>
      match f gammaResult with
      | none => none
      | some transformed =>
        if transformed.isFiniteP then some transformed else none

/-- The source's `hasTransform ? compile(transformFunction) : null` step:
`some none` when no transform is given, `some (some f)` when it compiles,
and `none` when compiling the non-blank transform throws (which the
source's outer `catch` turns into an empty result). -/
def compiledTransformOf (env : MathjsEnv) (transformFunction : String) :
    Option (Option ZClos) :=
  if isBlank transformFunction then some none
  else (env.compileZ transformFunction).map some

/-- `evaluateSingleContour` from `evaluator.ts`: sample `γ(t)` (optionally
post-composed with `f`) at `tSteps` equally spaced parameters
`t = tMin + step · dt`, `dt = (tMax − tMin)/max(tSteps − 1, 1)`, pushing
only the finite-valued samples.  A blank expression, a failed compilation
of the expression, or a failed compilation of a non-blank transform all
yield the empty list (the source's outer `catch`). -/
noncomputable def evaluateSingleContour (env : MathjsEnv) (expression transformFunction : String)
    (tMin tMax : ℝ) (tSteps : ℕ) : List ComplexPoint :=
  if isBlank expression then []
  else
    match env.compileT expression, compiledTransformOf env transformFunction with
    | some compiled, some compiledTransform =>
      let dt := (tMax - tMin) / (max (tSteps - 1) 1 : ℕ)
      (List.range tSteps).foldl
        (fun points (step : ℕ) =>
          points ++ (contourStep compiled compiledTransform (tMin + step * dt)).toList)
        []
    | _, _ => []

/-! ## evaluator.ts: contour integral -/

/-- The `ContourEntry` configuration record of `src/types`. -/
structure ContourEntry where
  id : String
  expression : String
  transformFunction : String
  color : String
  enabled : Bool
  tMin : ℝ
  tMax : ℝ
  tSteps : ℕ
  animationSpeed : ℝ

/-- The `ContourIntegralData` result record of `src/types`. -/
structure ContourIntegralData where
  id : String
  color : String
  tValues : List ℝ
  contourPoints : List ComplexPoint
  integrandVectors : List ComplexPoint
  runningSum : List ComplexPoint
  finalValue : ComplexPoint
  expression : String
  transformFunction : String

/-- The sample spacing `dt = (tMax − tMin) / Math.max(tSteps − 1, 1)`
computed by `computeContourIntegral` (and, with its own fields, by every
generator). -/
noncomputable def dtOf (contour : ContourEntry) : ℝ :=
  (contour.tMax - contour.tMin) / (max (contour.tSteps - 1) 1 : ℕ)

/-- The integrand expression actually used: the transform when non-blank,
else the constant-function string `1`
(`transformFunction && transformFunction.trim() !== '' ? transformFunction : '1'`). -/
def fExprOf (contour : ContourEntry) : String :=
  if isBlank contour.transformFunction then "1" else contour.transformFunction

/-- The mutable state of the sampling loop of `computeContourIntegral`:
the four pushed sequences and the running accumulator `currentSum`. -/
structure IntState where
  tValues : List ℝ
  contourPoints : List ComplexPoint
  integrandVectors : List ComplexPoint
  runningSum : List ComplexPoint
  currentSum : ComplexPoint

/-- The loop state before the first iteration: empty sequences and a zero
accumulator. -/
def initIntState : IntState :=
  { tValues := [], contourPoints := [], integrandVectors := [], runningSum := []
    currentSum := zeroCP }

/-- The per-sample computation of the loop body of
`computeContourIntegral`, exactly as in the source: evaluate `γ(t)` and
skip unless finite; estimate `γ'(t)` by the central difference
`(γ(t+h) − γ(t−h))/(2h)` when both shifted evaluations succeed and are
finite, else fall back to the forward difference `(γ(t+h) − γ(t))/h`
(re-evaluating `γ(t+h)` as the source does), else skip; evaluate `f(γ(t))`
and skip unless finite; form the integrand `f(γ(t))·γ'(t)` (complex
multiplication) and skip unless finite.  The result is
`some (t, γ(t), integrand)` for a surviving sample, `none` for a skipped
one. -/
noncomputable def survivingSample (evalGamma : TClos) (evalF : ZClos) (tMin dt h : ℝ)
    (step : ℕ) : Option (ℝ × ComplexPoint × ComplexPoint) :=
  let t := tMin + step * dt
  match evalGamma t with
  | none => none
  | some gamma =>
    if gamma.isFiniteP then
      let central : Option ComplexPoint :=
        match evalGamma (t + h), evalGamma (t - h) with
        | some gp, some gm =>
          if gp.isFiniteP && gm.isFiniteP then
            some { re := (gp.re.sub gm.re).divR (2 * h), im := (gp.im.sub gm.im).divR (2 * h) }
          else none
        | _, _ => none
      let gammaPrimeOpt : Option ComplexPoint :=
        match central with
        | some gp => some gp
        | none =>
          match evalGamma (t + h) with
          | some gammaNext =>
            if gammaNext.isFiniteP then
              some { re := (gammaNext.re.sub gamma.re).divR h
                     im := (gammaNext.im.sub gamma.im).divR h }
            else none
          | none => none
      match gammaPrimeOpt with
      | none => none
      | some gammaPrime =>
        match evalF gamma with
        | none => none
        | some fValue =>
          if fValue.isFiniteP then
            let integrand := complexMultiply fValue gammaPrime
            if integrand.isFiniteP then some (t, gamma, integrand) else none
          else none
    else none

/-- One iteration of the sampling loop of `computeContourIntegral`: when
the sample survives, accumulate `currentSum += integrand·dt` and push `t`,
`γ(t)`, the integrand and a copy of `currentSum` onto the four sequences;
when it is skipped (`continue` in the source) the state is unchanged. -/
noncomputable def integralStep (evalGamma : TClos) (evalF : ZClos) (tMin dt h : ℝ)
    (st : IntState) (step : ℕ) : IntState :=
  match survivingSample evalGamma evalF tMin dt h step with
  | none => st
  | some (t, gamma, integrand) =>
    let contribution := complexScale integrand dt
    let currentSum := complexAdd st.currentSum contribution
    { tValues := st.tValues ++ [t]
      contourPoints := st.contourPoints ++ [gamma]
      integrandVectors := st.integrandVectors ++ [integrand]
      runningSum := st.runningSum ++ [currentSum]
      currentSum := currentSum }

/-- `computeContourIntegral` from `evaluator.ts`: `null` for a blank curve
expression; compile the curve and the (defaulted) integrand, `null` when
either compilation throws; run the sampling loop; `null` when no sample
survived, else the assembled `ContourIntegralData`. -/
noncomputable def computeContourIntegral (env : MathjsEnv) (contour : ContourEntry) :
    Option ContourIntegralData :=
  if isBlank contour.expression then none
  else
    match env.compileT contour.expression, env.compileZ (fExprOf contour) with
    | some compiledGamma, some compiledF =>
      let dt := dtOf contour
      let h := dt * 0.01
      let final := (List.range contour.tSteps).foldl
        (integralStep compiledGamma compiledF contour.tMin dt h) initIntState
      if final.tValues.length = 0 then none
      else
        some { id := contour.id
               color := contour.color
               tValues := final.tValues
               contourPoints := final.contourPoints
               integrandVectors := final.integrandVectors
               runningSum := final.runningSum
               finalValue := final.currentSum
               expression := contour.expression
               transformFunction := fExprOf contour }
    | _, _ => none

/-- Sum a list of complex contributions starting from an accumulator, the
way the loop's `currentSum` accumulates. -/
def listSumCP (init : ComplexPoint) (l : List ComplexPoint) : ComplexPoint :=
  l.foldl complexAdd init

/-- The sequence of running partial sums of a list of contributions,
starting from an accumulator. -/
def cumSumsFrom (init : ComplexPoint) : List ComplexPoint → List ComplexPoint
  | [] => []
  | c :: cs => complexAdd init c :: cumSumsFrom (complexAdd init c) cs

/-! ## evaluator.ts: grid generators -/

/-- The `DomainColoringConfig` record of `src/types` (the `ColorMapping`
union type is modelled as its underlying string). -/
structure DomainColoringConfig where
  expression : String
  xMin : ℝ
  xMax : ℝ
  yMin : ℝ
  yMax : ℝ
  resolution : ℕ
  colorBy : String

/-- The `Surface3DConfig` record of `src/types`. -/
structure Surface3DConfig where
  expression : String
  xMin : ℝ
  xMax : ℝ
  yMin : ℝ
  yMax : ℝ
  resolution : ℕ
  heightBy : String
  colorBy : String

/-- The `{ z, colors }` result of `generateDomainColoringData`. -/
structure DomainColoringData where
  z : List (List FV)
  colors : List (List FV)

/-- The `{ x, y, z, colors }` result of `generateSurface3DData`. -/
structure Surface3DData where
  x : List ℝ
  y : List ℝ
  z : List (List FV)
  colors : List (List FV)

/-- The body of the cell loop of `generateDomainColoringData`: evaluate the
compiled expression at `x + iy`, project with `getColorValue`, and produce
the projected scalar when finite, else the explicit invalid marker `NaN`
(here `FV.nonfin`); a thrown evaluation also produces the marker. -/
noncomputable def domainCell (compiled : ZClos) (colorBy : String) (x y : ℝ) : FV :=
  match compiled { re := .fin x, im := .fin y } with
  | none => .nonfin
  | some result =>
    let value := getColorValue result colorBy
    if value.isFinite then value else .nonfin

/-- The inner (column) loop of `generateDomainColoringData`: build one row
of `z` and one row of `colors`; in the source the same per-cell scalar is
pushed into both. -/
noncomputable def domainRowPair (compiled : ZClos) (colorBy : String) (xMin dx y : ℝ)
    (resolution : ℕ) : List FV × List FV :=
  (List.range resolution).foldl
    (fun rp (i : ℕ) =>
      let x := xMin + i * dx
      let value := domainCell compiled colorBy x y
      (rp.1 ++ [value], rp.2 ++ [value]))
    ([], [])

/-- `generateDomainColoringData` from `evaluator.ts`: row-major sampling of
the rectangle at `resolution × resolution` points, pushing the same
per-cell scalar into `z` and `colors`; a blank or non-compiling expression
yields empty grids. -/
noncomputable def generateDomainColoringData (env : MathjsEnv) (config : DomainColoringConfig) :
    DomainColoringData :=
  if isBlank config.expression then { z := [], colors := [] }
  else
    match env.compileZ config.expression with
    | none => { z := [], colors := [] }
    | some compiled =>
      let dx := (config.xMax - config.xMin) / (max (config.resolution - 1) 1 : ℕ)
      let dy := (config.yMax - config.yMin) / (max (config.resolution - 1) 1 : ℕ)
      let grids := (List.range config.resolution).foldl
        (fun acc (j : ℕ) =>
          let y := config.yMin + j * dy
          let rowPair := domainRowPair compiled config.colorBy config.xMin dx y config.resolution
          (acc.1 ++ [rowPair.1], acc.2 ++ [rowPair.2]))
        ([], [])
      { z := grids.1, colors := grids.2 }

/-- The body of the cell loop of `generateSurface3DData`: one evaluation of
the compiled expression per cell, then the two independently selected
projections (height, color) of that single evaluated value, each replaced
by the invalid marker when non-finite; a thrown evaluation marks both. -/
noncomputable def surfaceCellPair (compiled : ZClos) (heightBy colorBy : String)
    (x y : ℝ) : FV × FV :=
  match compiled { re := .fin x, im := .fin y } with
  | none => (.nonfin, .nonfin)
  | some output =>
    let heightValue := getColorValue output heightBy
    let colorValue := getColorValue output colorBy
    ((if heightValue.isFinite then heightValue else .nonfin),
     (if colorValue.isFinite then colorValue else .nonfin))

/-- The inner (column) loop of `generateSurface3DData`: build one row of
`z` (height projection) and one row of `colors` (color projection) from a
single evaluation per cell at the axis values `x[i]`, `yVal`. -/
noncomputable def surfaceRowPair (compiled : ZClos) (heightBy colorBy : String)
    (xArr : List ℝ) (yVal : ℝ) (resolution : ℕ) : List FV × List FV :=
  (List.range resolution).foldl
    (fun rp (i : ℕ) =>
      let xVal := xArr.getD i 0
      let cell := surfaceCellPair compiled heightBy colorBy xVal yVal
      (rp.1 ++ [cell.1], rp.2 ++ [cell.2]))
    ([], [])

/-- `generateSurface3DData` from `evaluator.ts`: build the `x` and `y` axis
arrays, then sample the grid row-major, evaluating the expression once per
cell with the axis values `x[i]`, `y[j]`; a blank or non-compiling
expression yields an empty result. -/
noncomputable def generateSurface3DData (env : MathjsEnv) (config : Surface3DConfig) :
    Surface3DData :=
  if isBlank config.expression then { x := [], y := [], z := [], colors := [] }
  else
    match env.compileZ config.expression with
    | none => { x := [], y := [], z := [], colors := [] }
    | some compiled =>
      let dx := (config.xMax - config.xMin) / (max (config.resolution - 1) 1 : ℕ)
      let dy := (config.yMax - config.yMin) / (max (config.resolution - 1) 1 : ℕ)
      let xArr := (List.range config.resolution).foldl
        (fun acc (i : ℕ) => acc ++ [config.xMin + i * dx]) []
      let yArr := (List.range config.resolution).foldl
        (fun acc (j : ℕ) => acc ++ [config.yMin + j * dy]) []
      let grids := (List.range config.resolution).foldl
        (fun acc (j : ℕ) =>
          let yVal := yArr.getD j 0
          let rowPair := surfaceRowPair compiled config.heightBy config.colorBy xArr yVal
            config.resolution
          (acc.1 ++ [rowPair.1], acc.2 ++ [rowPair.2]))
        ([], [])
      { x := xArr, y := yArr, z := grids.1, colors := grids.2 }

/-! ## General lemmas about the push-style loops -/

theorem foldl_append_toList {α : Type} (F : ℕ → Option α) :
    ∀ (l : List ℕ) (init : List α),
      l.foldl (fun acc s => acc ++ (F s).toList) init = init ++ l.filterMap F
  | [], init => by simp
  | s :: rest, init => by
    cases h : F s with
    | none =>
      simp only [List.foldl_cons, List.filterMap_cons, h, Option.toList_none,
        List.append_nil]
      exact foldl_append_toList F rest init
    | some a =>
      simp only [List.foldl_cons, List.filterMap_cons, h, Option.toList_some]
      rw [foldl_append_toList F rest (init ++ [a])]
      simp

theorem foldl_pair_push {α β : Type} (u : ℕ → α) (v : ℕ → β) :
    ∀ (l : List ℕ) (a : List α) (b : List β),
      l.foldl (fun p s => (p.1 ++ [u s], p.2 ++ [v s])) (a, b) =
        (a ++ l.map u, b ++ l.map v)
  | [], a, b => by simp
  | s :: rest, a, b => by
    simp only [List.foldl_cons, List.map_cons]
    rw [foldl_pair_push u v rest (a ++ [u s]) (b ++ [v s])]
    simp

theorem foldl_push {α : Type} (g : ℕ → α) (l : List ℕ) (init : List α) :
    l.foldl (fun acc s => acc ++ [g s]) init = init ++ l.map g := by
  induction l generalizing init with
  | nil => simp
  | cons s rest ih =>
    simp only [List.foldl_cons, List.map_cons]
    rw [ih (init ++ [g s])]
    simp

theorem getD_map_range {α : Type} (g : ℕ → α) (n i : ℕ) (d : α) (h : i < n) :
    (((List.range n).map g).getD i d) = g i := by
  rw [List.getD_eq_getElem?_getD]
  simp [List.getElem?_map, List.getElem?_range h]

/-- Look up the cell at row `j`, column `i` of a grid. -/
def cellAt (g : List (List FV)) (j i : ℕ) : Option FV :=
  (g[j]?).bind fun row => row[i]?

theorem cellAt_map_range (c : ℕ → ℕ → FV) (n m j i : ℕ) (hj : j < n) (hi : i < m) :
    cellAt ((List.range n).map fun j => (List.range m).map fun i => c j i) j i =
      some (c j i) := by
  simp [cellAt, List.getElem?_map, List.getElem?_range, hj, hi]

/-! ## The integral loop as a per-sample computation -/

theorem listSumCP_append_single (init : ComplexPoint) (l : List ComplexPoint)
    (c : ComplexPoint) :
    listSumCP init (l ++ [c]) = complexAdd (listSumCP init l) c := by
  simp [listSumCP, List.foldl_append]

theorem cumSumsFrom_append_single (init : ComplexPoint) (l : List ComplexPoint)
    (c : ComplexPoint) :
    cumSumsFrom init (l ++ [c]) = cumSumsFrom init l ++ [complexAdd (listSumCP init l) c] := by
  induction l generalizing init with
  | nil => simp [cumSumsFrom, listSumCP]
  | cons a rest ih =>
    simp only [List.cons_append, cumSumsFrom, List.append_eq]
    rw [ih (complexAdd init a)]
    simp [listSumCP]

/-- The state after the whole sampling loop of `computeContourIntegral`,
expressed through the per-sample outcomes: the four sequences are the
projections of the surviving samples in step order, `runningSum` is the
sequence of partial sums of the contributions `integrand·dt`, and
`currentSum` is their total. -/
theorem integral_fold_eq (evalGamma : TClos) (evalF : ZClos) (tMin dt h : ℝ) (n : ℕ) :
    (List.range n).foldl (integralStep evalGamma evalF tMin dt h) initIntState =
      { tValues :=
          ((List.range n).filterMap (survivingSample evalGamma evalF tMin dt h)).map
            (fun s => s.1)
        contourPoints :=
          ((List.range n).filterMap (survivingSample evalGamma evalF tMin dt h)).map
            (fun s => s.2.1)
        integrandVectors :=
          ((List.range n).filterMap (survivingSample evalGamma evalF tMin dt h)).map
            (fun s => s.2.2)
        runningSum :=
          cumSumsFrom zeroCP
            (((List.range n).filterMap (survivingSample evalGamma evalF tMin dt h)).map
              (fun s => complexScale s.2.2 dt))
        currentSum :=
          listSumCP zeroCP
            (((List.range n).filterMap (survivingSample evalGamma evalF tMin dt h)).map
              (fun s => complexScale s.2.2 dt)) } := by
  induction n with
  | zero => rfl
  | succ n ih =>
    rw [List.range_succ, List.foldl_append, ih, List.filterMap_append]
    cases hss : survivingSample evalGamma evalF tMin dt h n with
    | none =>
      simp [integralStep, hss]
    | some s =>
      obtain ⟨t, gamma, integrand⟩ := s
      simp only [integralStep, hss, List.foldl_cons, List.foldl_nil,
        List.filterMap_cons, List.filterMap_nil, List.map_append, List.map_cons,
        List.map_nil, cumSumsFrom_append_single, listSumCP_append_single]

/-! ## Characterizations of the generators -/

/-- With a non-blank, compiling expression (and a transform that is absent
or compiles), the contour sampler is exactly the per-step sample function
filtered over the steps `0..tSteps−1` in order. -/
theorem evaluateSingleContour_eq (env : MathjsEnv) (expression transformFunction : String)
    (tMin tMax : ℝ) (tSteps : ℕ) (compiled : TClos) (tr : Option ZClos)
    (he : isBlank expression = false)
    (hc : env.compileT expression = some compiled)
    (ht : compiledTransformOf env transformFunction = some tr) :
    evaluateSingleContour env expression transformFunction tMin tMax tSteps =
      (List.range tSteps).filterMap
        (fun (step : ℕ) => contourStep compiled tr
          (tMin + step * ((tMax - tMin) / (max (tSteps - 1) 1 : ℕ)))) := by
  unfold evaluateSingleContour
  rw [if_neg (by simp [he]), hc, ht]
  show (List.range tSteps).foldl
      (fun points (step : ℕ) => points ++ (contourStep compiled tr
        (tMin + step * ((tMax - tMin) / (max (tSteps - 1) 1 : ℕ)))).toList) [] = _
  rw [foldl_append_toList
    (fun step : ℕ => contourStep compiled tr
      (tMin + step * ((tMax - tMin) / (max (tSteps - 1) 1 : ℕ))))
    (List.range tSteps) [], List.nil_append]

theorem domainRowPair_eq (compiled : ZClos) (colorBy : String) (xMin dx y : ℝ)
    (resolution : ℕ) :
    domainRowPair compiled colorBy xMin dx y resolution =
      ((List.range resolution).map fun (i : ℕ) => domainCell compiled colorBy (xMin + i * dx) y,
       (List.range resolution).map fun (i : ℕ) => domainCell compiled colorBy (xMin + i * dx) y)
    := by
  unfold domainRowPair
  show (List.range resolution).foldl
      (fun rp (i : ℕ) =>
        (rp.1 ++ [domainCell compiled colorBy (xMin + i * dx) y],
         rp.2 ++ [domainCell compiled colorBy (xMin + i * dx) y])) ([], []) = _
  rw [foldl_pair_push (fun (i : ℕ) => domainCell compiled colorBy (xMin + i * dx) y)
    (fun (i : ℕ) => domainCell compiled colorBy (xMin + i * dx) y) (List.range resolution) [] []]
  simp

/-- The domain-coloring grid, described cell by cell: row `j`, column `i`
holds the (marked) projection of the evaluation at
`(xMin + i·dx) + i(yMin + j·dy)`, in row-major order. -/
noncomputable def domainGrid (compiled : ZClos) (config : DomainColoringConfig) :
    List (List FV) :=
  (List.range config.resolution).map fun (j : ℕ) =>
    (List.range config.resolution).map fun (i : ℕ) =>
      domainCell compiled config.colorBy
        (config.xMin + i * ((config.xMax - config.xMin) / (max (config.resolution - 1) 1 : ℕ)))
        (config.yMin + j * ((config.yMax - config.yMin) / (max (config.resolution - 1) 1 : ℕ)))

/-- With a non-blank, compiling expression, the domain-coloring generator
returns the row-major cell grid in both components. -/
theorem generateDomainColoringData_eq (env : MathjsEnv) (config : DomainColoringConfig)
    (compiled : ZClos) (he : isBlank config.expression = false)
    (hc : env.compileZ config.expression = some compiled) :
    generateDomainColoringData env config =
      { z := domainGrid compiled config, colors := domainGrid compiled config } := by
  unfold generateDomainColoringData
  rw [if_neg (by simp [he]), hc]
  dsimp only
  simp only [domainRowPair_eq]
  rw [foldl_pair_push
    (fun (j : ℕ) => (List.range config.resolution).map fun (i : ℕ) =>
      domainCell compiled config.colorBy
        (config.xMin + i * ((config.xMax - config.xMin) / (max (config.resolution - 1) 1 : ℕ)))
        (config.yMin + j * ((config.yMax - config.yMin) / (max (config.resolution - 1) 1 : ℕ))))
    (fun (j : ℕ) => (List.range config.resolution).map fun (i : ℕ) =>
      domainCell compiled config.colorBy
        (config.xMin + i * ((config.xMax - config.xMin) / (max (config.resolution - 1) 1 : ℕ)))
        (config.yMin + j * ((config.yMax - config.yMin) / (max (config.resolution - 1) 1 : ℕ))))
    (List.range config.resolution) [] []]
  simp [domainGrid]

theorem surfaceRowPair_eq (compiled : ZClos) (heightBy colorBy : String) (xArr : List ℝ)
    (yVal : ℝ) (resolution : ℕ) :
    surfaceRowPair compiled heightBy colorBy xArr yVal resolution =
      ((List.range resolution).map fun (i : ℕ) =>
        (surfaceCellPair compiled heightBy colorBy (xArr.getD i 0) yVal).1,
       (List.range resolution).map fun (i : ℕ) =>
        (surfaceCellPair compiled heightBy colorBy (xArr.getD i 0) yVal).2) := by
  unfold surfaceRowPair
  show (List.range resolution).foldl
      (fun rp (i : ℕ) =>
        (rp.1 ++ [(surfaceCellPair compiled heightBy colorBy (xArr.getD i 0) yVal).1],
         rp.2 ++ [(surfaceCellPair compiled heightBy colorBy (xArr.getD i 0) yVal).2]))
      ([], []) = _
  rw [foldl_pair_push
    (fun (i : ℕ) => (surfaceCellPair compiled heightBy colorBy (xArr.getD i 0) yVal).1)
    (fun (i : ℕ) => (surfaceCellPair compiled heightBy colorBy (xArr.getD i 0) yVal).2)
    (List.range resolution) [] []]
  simp

/-- The surface height grid, described cell by cell: row `j`, column `i`
holds the first (height) component of the per-cell pair computed from the
single evaluation at `(xMin + i·dx) + i(yMin + j·dy)`. -/
noncomputable def surfaceZGrid (compiled : ZClos) (config : Surface3DConfig) :
    List (List FV) :=
  (List.range config.resolution).map fun (j : ℕ) =>
    (List.range config.resolution).map fun (i : ℕ) =>
      (surfaceCellPair compiled config.heightBy config.colorBy
        (config.xMin + i * ((config.xMax - config.xMin) / (max (config.resolution - 1) 1 : ℕ)))
        (config.yMin + j * ((config.yMax - config.yMin) / (max (config.resolution - 1) 1 : ℕ)))).1

/-- The surface color grid: the second (color) component of the same
per-cell pair as `surfaceZGrid`. -/
noncomputable def surfaceColorsGrid (compiled : ZClos) (config : Surface3DConfig) :
    List (List FV) :=
  (List.range config.resolution).map fun (j : ℕ) =>
    (List.range config.resolution).map fun (i : ℕ) =>
      (surfaceCellPair compiled config.heightBy config.colorBy
        (config.xMin + i * ((config.xMax - config.xMin) / (max (config.resolution - 1) 1 : ℕ)))
        (config.yMin + j * ((config.yMax - config.yMin) / (max (config.resolution - 1) 1 : ℕ)))).2

/-- With a non-blank, compiling expression, the surface generator returns
the two axis arrays and the row-major height and color grids, both grids
built from one evaluation per cell. -/
theorem generateSurface3DData_eq (env : MathjsEnv) (config : Surface3DConfig)
    (compiled : ZClos) (he : isBlank config.expression = false)
    (hc : env.compileZ config.expression = some compiled) :
    generateSurface3DData env config =
      { x := (List.range config.resolution).map fun (i : ℕ) =>
          config.xMin + i * ((config.xMax - config.xMin) / (max (config.resolution - 1) 1 : ℕ))
        y := (List.range config.resolution).map fun (j : ℕ) =>
          config.yMin + j * ((config.yMax - config.yMin) / (max (config.resolution - 1) 1 : ℕ))
        z := surfaceZGrid compiled config
        colors := surfaceColorsGrid compiled config } := by
  unfold generateSurface3DData
  rw [if_neg (by simp [he]), hc]
  dsimp only
  rw [foldl_push
    (fun (i : ℕ) =>
      config.xMin + i * ((config.xMax - config.xMin) / (max (config.resolution - 1) 1 : ℕ)))
    (List.range config.resolution) []]
  rw [foldl_push
    (fun (j : ℕ) =>
      config.yMin + j * ((config.yMax - config.yMin) / (max (config.resolution - 1) 1 : ℕ)))
    (List.range config.resolution) []]
  simp only [List.nil_append, surfaceRowPair_eq]
  rw [foldl_pair_push
    (fun (j : ℕ) => (List.range config.resolution).map fun (i : ℕ) =>
      (surfaceCellPair compiled config.heightBy config.colorBy
        ((((List.range config.resolution).map fun (k : ℕ) =>
          config.xMin + k * ((config.xMax - config.xMin) /
            (max (config.resolution - 1) 1 : ℕ))).getD i 0))
        ((((List.range config.resolution).map fun (k : ℕ) =>
          config.yMin + k * ((config.yMax - config.yMin) /
            (max (config.resolution - 1) 1 : ℕ))).getD j 0))).1)
    (fun (j : ℕ) => (List.range config.resolution).map fun (i : ℕ) =>
      (surfaceCellPair compiled config.heightBy config.colorBy
        ((((List.range config.resolution).map fun (k : ℕ) =>
          config.xMin + k * ((config.xMax - config.xMin) /
            (max (config.resolution - 1) 1 : ℕ))).getD i 0))
        ((((List.range config.resolution).map fun (k : ℕ) =>
          config.yMin + k * ((config.yMax - config.yMin) /
            (max (config.resolution - 1) 1 : ℕ))).getD j 0))).2)
    (List.range config.resolution) [] []]
  have hz : ((List.range config.resolution).map fun (j : ℕ) =>
      (List.range config.resolution).map fun (i : ℕ) =>
        (surfaceCellPair compiled config.heightBy config.colorBy
          ((((List.range config.resolution).map fun (k : ℕ) =>
            config.xMin + k * ((config.xMax - config.xMin) /
              (max (config.resolution - 1) 1 : ℕ))).getD i 0))
          ((((List.range config.resolution).map fun (k : ℕ) =>
            config.yMin + k * ((config.yMax - config.yMin) /
              (max (config.resolution - 1) 1 : ℕ))).getD j 0))).1) =
      surfaceZGrid compiled config := by
    unfold surfaceZGrid
    refine List.map_congr_left fun j hj => ?_
    rw [getD_map_range _ _ _ _ (List.mem_range.mp hj)]
    refine List.map_congr_left fun i hi => ?_
    rw [getD_map_range _ _ _ _ (List.mem_range.mp hi)]
  have hcolors : ((List.range config.resolution).map fun (j : ℕ) =>
      (List.range config.resolution).map fun (i : ℕ) =>
        (surfaceCellPair compiled config.heightBy config.colorBy
          ((((List.range config.resolution).map fun (k : ℕ) =>
            config.xMin + k * ((config.xMax - config.xMin) /
              (max (config.resolution - 1) 1 : ℕ))).getD i 0))
          ((((List.range config.resolution).map fun (k : ℕ) =>
            config.yMin + k * ((config.yMax - config.yMin) /
              (max (config.resolution - 1) 1 : ℕ))).getD j 0))).2) =
      surfaceColorsGrid compiled config := by
    unfold surfaceColorsGrid
    refine List.map_congr_left fun j hj => ?_
    rw [getD_map_range _ _ _ _ (List.mem_range.mp hj)]
    refine List.map_congr_left fun i hi => ?_
    rw [getD_map_range _ _ _ _ (List.mem_range.mp hi)]
  rw [List.nil_append, List.nil_append, hz, hcolors]

/-- The derivative step `h = dt · 0.01` of `computeContourIntegral`. -/
noncomputable def hOf (contour : ContourEntry) : ℝ := dtOf contour * 0.01

/-- The surviving samples of the integral loop for a contour, given the two
compiled closures. -/
noncomputable def samplesOf (compiledGamma : TClos) (compiledF : ZClos)
    (contour : ContourEntry) : List (ℝ × ComplexPoint × ComplexPoint) :=
  (List.range contour.tSteps).filterMap
    (survivingSample compiledGamma compiledF contour.tMin (dtOf contour) (hOf contour))

/-- The contributions `integrand · dt` of the surviving samples, in step
order. -/
noncomputable def contribsOf (compiledGamma : TClos) (compiledF : ZClos)
    (contour : ContourEntry) : List ComplexPoint :=
  (samplesOf compiledGamma compiledF contour).map fun s => complexScale s.2.2 (dtOf contour)

/-- With a non-blank curve expression and both compilations succeeding, the
contour-integral engine returns `none` exactly when no sample survives, and
otherwise the record assembled from the surviving samples: the four
sequences are their projections, `runningSum` the partial sums of the
contributions, and `finalValue` their total. -/
theorem computeContourIntegral_eq (env : MathjsEnv) (contour : ContourEntry)
    (compiledGamma : TClos) (compiledF : ZClos)
    (he : isBlank contour.expression = false)
    (hg : env.compileT contour.expression = some compiledGamma)
    (hf : env.compileZ (fExprOf contour) = some compiledF) :
    computeContourIntegral env contour =
      if (samplesOf compiledGamma compiledF contour).isEmpty then none
      else some
        { id := contour.id
          color := contour.color
          tValues := (samplesOf compiledGamma compiledF contour).map fun s => s.1
          contourPoints := (samplesOf compiledGamma compiledF contour).map fun s => s.2.1
          integrandVectors := (samplesOf compiledGamma compiledF contour).map fun s => s.2.2
          runningSum := cumSumsFrom zeroCP (contribsOf compiledGamma compiledF contour)
          finalValue := listSumCP zeroCP (contribsOf compiledGamma compiledF contour)
          expression := contour.expression
          transformFunction := fExprOf contour } := by
  unfold computeContourIntegral
  rw [if_neg (by simp [he]), hg, hf]
  dsimp only
  rw [integral_fold_eq compiledGamma compiledF contour.tMin (dtOf contour)
    (dtOf contour * 0.01) contour.tSteps]
  simp only [samplesOf, contribsOf, hOf]
  by_cases hs : (List.range contour.tSteps).filterMap
      (survivingSample compiledGamma compiledF contour.tMin (dtOf contour)
        (dtOf contour * 0.01)) = []
  · rw [hs]
    simp
  · rw [if_neg (by simpa using hs), if_neg (by simpa [List.isEmpty_iff] using hs)]

/-! ## Claim C8: argument projection -/

/-- C8: for every complex value `(re, im)` (finite components in the real
model), the argument projection equals `atan2(im, re)` — both through
`argument` and through `getColorValue` with the `argument` selector — and
this value lies in the half-open interval `(−π, π]`. -/
theorem C8_argument_eq_atan2_in_Ioc (a b : ℝ) :
    argument { re := FV.fin a, im := FV.fin b } = FV.fin (atan2 b a) ∧
    getColorValue { re := FV.fin a, im := FV.fin b } "argument" = FV.fin (atan2 b a) ∧
    atan2 b a ∈ Set.Ioc (-Real.pi) Real.pi := by
  refine ⟨rfl, rfl, ?_⟩
  rw [Set.mem_Ioc]
  unfold atan2
  have hp := Real.pi_pos
  split_ifs with h1 h2 h3 h4 h5
  · have h := Real.arctan_lt_pi_div_two (b / a)
    have h' := Real.neg_pi_div_two_lt_arctan (b / a)
    constructor <;> linarith
  · have hdiv : b / a ≤ 0 := div_nonpos_iff.mpr (Or.inl ⟨h3, le_of_lt h2⟩)
    have hle : Real.arctan (b / a) ≤ 0 := by
      have := Real.arctan_strictMono.monotone hdiv
      rwa [Real.arctan_zero] at this
    have h' := Real.neg_pi_div_two_lt_arctan (b / a)
    constructor <;> linarith
  · have hb : b < 0 := lt_of_not_le h3
    have hdiv : 0 < b / a := div_pos_of_neg_of_neg hb h2
    have hgt : 0 < Real.arctan (b / a) := by
      have := Real.arctan_strictMono hdiv
      rwa [Real.arctan_zero] at this
    have h := Real.arctan_lt_pi_div_two (b / a)
    constructor <;> linarith
  · constructor <;> linarith
  · constructor <;> linarith
  · constructor <;> linarith

/-! ## Claim C9: expressions without the free variable -/

mutual
/-- Evaluation only consults the scope at names that occur in the
expression: two scopes agreeing on all occurring names give the same
result. -/
theorem evalNode_congr (s₁ s₂ : String → Option CVal) (e : ExpressionNode)
    (h : ∀ n, occursIn n e = true → s₁ n = s₂ n) :
    evalNode s₁ e = evalNode s₂ e :=
  match e with
  | .num _ => rfl
  | .const _ => rfl
  | .var n => by
    have hn : s₁ n = s₂ n := h n (by simp [occursIn])
    simp only [evalNode, hn]
  | .unaryOp op a => by
    have ha : evalNode s₁ a = evalNode s₂ a :=
      evalNode_congr s₁ s₂ a fun n hn => h n (by simp [occursIn, hn])
    simp only [evalNode, ha]
  | .binaryOp op a b => by
    have ha : evalNode s₁ a = evalNode s₂ a :=
      evalNode_congr s₁ s₂ a fun n hn => h n (by simp [occursIn, hn])
    have hb : evalNode s₁ b = evalNode s₂ b :=
      evalNode_congr s₁ s₂ b fun n hn => h n (by simp [occursIn, hn])
    simp only [evalNode, ha, hb]
  | .call f args => by
    have ha : evalArgs s₁ args = evalArgs s₂ args :=
      evalArgs_congr s₁ s₂ args fun n hn => h n (by simp [occursIn, hn])
    simp only [evalNode, ha]
/-- The argument-list version of `evalNode_congr`. -/
theorem evalArgs_congr (s₁ s₂ : String → Option CVal) (l : ExprList)
    (h : ∀ n, occursInList n l = true → s₁ n = s₂ n) :
    evalArgs s₁ l = evalArgs s₂ l :=
  match l with
  | .nil => rfl
  | .cons a rest => by
    have ha : evalNode s₁ a = evalNode s₂ a :=
      evalNode_congr s₁ s₂ a fun n hn => h n (by simp [occursInList, hn])
    have hr : evalArgs s₁ rest = evalArgs s₂ rest :=
      evalArgs_congr s₁ s₂ rest fun n hn => h n (by simp [occursInList, hn])
    simp only [evalArgs, ha, hr]
end

/-- C9: for every compiled expression that contains no occurrence of its
free variable, `evaluateAt` returns the same value for any two bindings
(spec-modelled mathjs evaluator). -/
theorem C9_no_free_variable_constant (compiled : ParsedExpression)
    (h : occursIn compiled.varName compiled.node = false)
    (b₁ b₂ : ComplexPoint) :
    evaluateAt compiled b₁ = evaluateAt compiled b₂ := by
  unfold evaluateAt
  have hs : evalNode (fun n => if n = compiled.varName then some (toCVal b₁) else none)
      compiled.node =
      evalNode (fun n => if n = compiled.varName then some (toCVal b₂) else none)
      compiled.node := by
    refine evalNode_congr _ _ _ fun n hn => ?_
    by_cases hv : n = compiled.varName
    · rw [hv] at hn
      rw [hn] at h
      exact absurd h (by simp)
    · simp [hv]
  rw [hs]

/-- Witness for C9 at a concrete expression and two distinct bindings. -/
theorem C9_witness :
    occursIn "z" (ExpressionNode.num 7) = false ∧
    evaluateAt { node := ExpressionNode.num 7, varName := "z" }
        { re := FV.fin 1, im := FV.fin 2 } =
      evaluateAt { node := ExpressionNode.num 7, varName := "z" }
        { re := FV.fin 3, im := FV.fin 4 } :=
  ⟨rfl, C9_no_free_variable_constant { node := ExpressionNode.num 7, varName := "z" } rfl
    { re := FV.fin 1, im := FV.fin 2 } { re := FV.fin 3, im := FV.fin 4 }⟩

/-! ## Claim C7: empty input versus malformed input in the parser -/

/-- An environment whose compiler and parser throw on every input, used to
exercise the compile-failure paths of the generators (mathjs `compile` does
throw on malformed text); it is not meant to reflect the mathjs parser on
blank input, which succeeds there. -/
def parseFailEnv : MathjsEnv :=
  { parseNode := fun _ => none, compileT := fun _ => none, compileZ := fun _ => none }

/-- An environment in which the parser succeeds on every input. -/
def parseOkEnv : MathjsEnv :=
  { parseNode := fun _ => some (ExpressionNode.num 0)
    compileT := fun _ => none, compileZ := fun _ => none }

/-- An environment reflecting mathjs's parser at the two traced inputs:
`parse('')` succeeds (mathjs returns a constant node for `undefined` when
there is no token), while `parse('(')` throws; on all other inputs it
succeeds like on the empty string. -/
def mathjsLikeEnv : MathjsEnv :=
  { parseNode := fun s => if s = "(" then none else some (ExpressionNode.const "undefined")
    compileT := fun _ => none, compileZ := fun _ => none }

/-- C7 counterexample: with the parser behaving as mathjs does at the
traced inputs (success on the empty string, throw on the malformed `"("`),
`parseExpression` returns the very same `null` for the empty input — via
its explicit blank-input check, without consulting the parser — and for the
malformed input, so the caller cannot distinguish the two cases from the
return value and the empty-input error is not a distinct, identifiable
error. -/
theorem C7_counterexample :
    parseExpression mathjsLikeEnv "" = parseExpression mathjsLikeEnv "(" ∧
    parseExpression mathjsLikeEnv "" = none := by
  exact ⟨rfl, rfl⟩

/-- C7 as amended, confined to `parseExpression`: empty or whitespace-only
input is detected by an explicit check and short-circuited to `null` before
the parser is ever consulted (the result does not depend on the parser at
all), but that `null` is the same value `parseExpression` returns for
malformed input, so the two cases are not distinguishable from its return
value.  (`isValidExpression` is not part of the correction: mathjs `parse`
succeeds on blank input, so it returns `true` there.) -/
theorem C7_empty_input_short_circuit (env₁ env₂ : MathjsEnv) (expr : String)
    (h : isBlank expr = true) :
    parseExpression env₁ expr = none ∧
    parseExpression env₁ expr = parseExpression env₂ expr := by
  refine ⟨?_, ?_⟩ <;> simp [parseExpression, h]

/-- Witness for the amended C7 at a concrete whitespace input and two
concrete environments whose parsers disagree on that input. -/
theorem C7_witness :
    isBlank "  " = true ∧
    (parseExpression mathjsLikeEnv "  " = none ∧
     parseExpression mathjsLikeEnv "  " = parseExpression parseOkEnv "  ") :=
  ⟨rfl, C7_empty_input_short_circuit mathjsLikeEnv parseOkEnv "  " rfl⟩

/-! ## Claim C2: contour sampling -/

/-- C2: for a contour with a non-blank, compilable curve expression (and a
transform that is absent or compiles) and `tSteps ≥ 1`, the sampler's
output is exactly the per-step samples — `γ` evaluated at
`t = tMin + step·dt`, `dt = (tMax − tMin)/max(tSteps − 1, 1)`, for
`step = 0..tSteps−1`, then the transform when given — with every erroring
or non-finite-valued sample dropped (`contourStep` returns `none` there),
i.e. the subsequence of finite-valued samples in increasing step order;
its length is at most `tSteps`. -/
theorem C2_contour_sampling_subsequence (env : MathjsEnv)
    (expression transformFunction : String) (tMin tMax : ℝ) (tSteps : ℕ)
    (compiled : TClos) (tr : Option ZClos)
    (hn : 1 ≤ tSteps)
    (he : isBlank expression = false)
    (hc : env.compileT expression = some compiled)
    (ht : compiledTransformOf env transformFunction = some tr) :
    evaluateSingleContour env expression transformFunction tMin tMax tSteps =
      (List.range tSteps).filterMap
        (fun (step : ℕ) => contourStep compiled tr
          (tMin + step * ((tMax - tMin) / (max (tSteps - 1) 1 : ℕ)))) ∧
    (evaluateSingleContour env expression transformFunction tMin tMax tSteps).length
      ≤ tSteps := by
  have hchar := evaluateSingleContour_eq env expression transformFunction tMin tMax
    tSteps compiled tr he hc ht
  refine ⟨hchar, ?_⟩
  rw [hchar]
  calc ((List.range tSteps).filterMap
        (fun (step : ℕ) => contourStep compiled tr
          (tMin + step * ((tMax - tMin) / (max (tSteps - 1) 1 : ℕ))))).length
      ≤ (List.range tSteps).length := List.length_filterMap_le _ _
    _ = tSteps := List.length_range tSteps

/-- A concrete compiled curve: the constant point `1 + 2i`. -/
def gammaW : TClos := fun _ => some { re := FV.fin 1, im := FV.fin 2 }

/-- A concrete compiled integrand: the constant point `1`. -/
def fW : ZClos := fun _ => some { re := FV.fin 1, im := FV.fin 0 }

/-- A concrete mathjs environment whose compiler always succeeds with the
closures above. -/
def envW : MathjsEnv :=
  { parseNode := fun _ => none
    compileT := fun _ => some gammaW
    compileZ := fun _ => some fW }

/-- Witness for C2 at the concrete environment, expression `"t"`, no
transform, range `[0, 1]` and 3 steps. -/
theorem C2_witness :
    1 ≤ 3 ∧ isBlank "t" = false ∧ envW.compileT "t" = some gammaW ∧
    compiledTransformOf envW "" = some none ∧
    (evaluateSingleContour envW "t" "" 0 1 3 =
      (List.range 3).filterMap
        (fun (step : ℕ) => contourStep gammaW none
          (0 + step * ((1 - 0) / (max (3 - 1) 1 : ℕ)))) ∧
     (evaluateSingleContour envW "t" "" 0 1 3).length ≤ 3) :=
  ⟨by decide, by decide, rfl, rfl,
    C2_contour_sampling_subsequence envW "t" "" 0 1 3 gammaW none (by decide)
      (by decide) rfl rfl⟩

/-! ## Claim C1: the integral quadrature -/

/-- C1: for a contour entry with a compilable (non-blank) curve expression,
whenever the engine returns a result, its sequences are exactly the
projections of the surviving samples — where a sample at
`t = tMin + step·dt` (`dt = (tMax−tMin)/max(tSteps−1,1)`, `h = dt·0.01`)
survives according to `survivingSample`: `γ'(t)` by the central difference
`(γ(t+h) − γ(t−h))/(2h)`, falling back to the forward difference
`(γ(t+h) − γ(t))/h` when a shifted evaluation fails or is non-finite,
skipping the sample when that also fails — and `finalValue` is the sum of
the contributions `f(γ(t))·γ'(t)·dt` over exactly the surviving samples. -/
theorem C1_integral_riemann_sum (env : MathjsEnv) (contour : ContourEntry)
    (compiledGamma : TClos) (compiledF : ZClos) (d : ContourIntegralData)
    (he : isBlank contour.expression = false)
    (hg : env.compileT contour.expression = some compiledGamma)
    (hf : env.compileZ (fExprOf contour) = some compiledF)
    (hres : computeContourIntegral env contour = some d) :
    d.tValues = (samplesOf compiledGamma compiledF contour).map (fun s => s.1) ∧
    d.contourPoints = (samplesOf compiledGamma compiledF contour).map (fun s => s.2.1) ∧
    d.integrandVectors = (samplesOf compiledGamma compiledF contour).map (fun s => s.2.2) ∧
    d.finalValue = listSumCP zeroCP (contribsOf compiledGamma compiledF contour) := by
  rw [computeContourIntegral_eq env contour compiledGamma compiledF he hg hf] at hres
  by_cases hs : (samplesOf compiledGamma compiledF contour).isEmpty = true
  · rw [if_pos hs] at hres
    exact absurd hres (by simp)
  · rw [if_neg hs] at hres
    injection hres with hd
    rw [← hd]
    exact ⟨rfl, rfl, rfl, rfl⟩

/-- A concrete contour entry: curve `"t"`, no transform, range `[0, 1]`,
one step. -/
def contourW : ContourEntry :=
  { id := "w", expression := "t", transformFunction := "", color := "red", enabled := true
    tMin := 0, tMax := 1, tSteps := 1, animationSpeed := 5 }

theorem survivingSampleW_isSome :
    (survivingSample gammaW fW contourW.tMin (dtOf contourW) (hOf contourW) 0).isSome
      = true := by
  have h2 : (2 * hOf contourW) ≠ 0 := by
    simp only [hOf, dtOf, contourW]
    norm_num
  simp [survivingSample, gammaW, fW, ComplexPoint.isFiniteP, FV.isFinite, FV.sub, FV.divR,
    complexMultiply, FV.mul, FV.add, h2]

theorem samplesW_ne : (samplesOf gammaW fW contourW).isEmpty = false := by
  simp only [samplesOf]
  rw [show List.range contourW.tSteps = [0] from rfl]
  obtain ⟨v, hv⟩ := Option.isSome_iff_exists.mp survivingSampleW_isSome
  simp [List.filterMap_cons, hv]

/-- The result of the integral engine at the concrete witness inputs,
expressed through the surviving samples. -/
noncomputable def dataW : ContourIntegralData :=
  { id := contourW.id
    color := contourW.color
    tValues := (samplesOf gammaW fW contourW).map fun s => s.1
    contourPoints := (samplesOf gammaW fW contourW).map fun s => s.2.1
    integrandVectors := (samplesOf gammaW fW contourW).map fun s => s.2.2
    runningSum := cumSumsFrom zeroCP (contribsOf gammaW fW contourW)
    finalValue := listSumCP zeroCP (contribsOf gammaW fW contourW)
    expression := contourW.expression
    transformFunction := fExprOf contourW }

theorem computeW : computeContourIntegral envW contourW = some dataW := by
  rw [computeContourIntegral_eq envW contourW gammaW fW (by decide) rfl rfl]
  rw [if_neg (by simp [samplesW_ne])]
  rfl

/-- Witness for C1 at the concrete environment and contour entry. -/
theorem C1_witness :
    isBlank contourW.expression = false ∧
    envW.compileT contourW.expression = some gammaW ∧
    envW.compileZ (fExprOf contourW) = some fW ∧
    computeContourIntegral envW contourW = some dataW ∧
    dataW.finalValue = listSumCP zeroCP (contribsOf gammaW fW contourW) :=
  ⟨by decide, rfl, rfl, computeW,
    (C1_integral_riemann_sum envW contourW gammaW fW dataW (by decide) rfl rfl
      computeW).2.2.2⟩

/-! ## Claim C10: invariants of a non-null integral result -/

theorem cumSumsFrom_length (init : ComplexPoint) (l : List ComplexPoint) :
    (cumSumsFrom init l).length = l.length := by
  induction l generalizing init with
  | nil => rfl
  | cons c cs ih => simp [cumSumsFrom, ih]

theorem cumSumsFrom_getElem? (init : ComplexPoint) (l : List ComplexPoint) (k : ℕ)
    (hk : k < l.length) :
    (cumSumsFrom init l)[k]? = some (listSumCP init (l.take (k + 1))) := by
  induction l generalizing init k with
  | nil => simp at hk
  | cons c cs ih =>
    cases k with
    | zero => simp [cumSumsFrom, listSumCP]
    | succ k =>
      have hk' : k < cs.length := by simpa using hk
      simp only [cumSumsFrom, List.getElem?_cons_succ, List.take_succ_cons, listSumCP,
        List.foldl_cons]
      exact ih (complexAdd init c) k hk'

/-- A non-null integral result implies a non-blank expression and two
successful compilations. -/
theorem computeContourIntegral_some_inv (env : MathjsEnv) (contour : ContourEntry)
    (d : ContourIntegralData) (hres : computeContourIntegral env contour = some d) :
    isBlank contour.expression = false ∧
    ∃ compiledGamma compiledF,
      env.compileT contour.expression = some compiledGamma ∧
      env.compileZ (fExprOf contour) = some compiledF := by
  unfold computeContourIntegral at hres
  by_cases hb : isBlank contour.expression = true
  · rw [if_pos hb] at hres
    exact absurd hres (by simp)
  · rw [if_neg hb] at hres
    refine ⟨by simpa using hb, ?_⟩
    cases hg : env.compileT contour.expression with
    | none =>
      rw [hg] at hres
      simp at hres
    | some compiledGamma =>
      cases hf : env.compileZ (fExprOf contour) with
      | none =>
        rw [hg, hf] at hres
        simp at hres
      | some compiledF => exact ⟨compiledGamma, compiledF, rfl, rfl⟩

/-- C10: whenever `computeContourIntegral` returns a non-null result, the
four sequences have the same length, that length is at least one, the
`k`-th running-sum entry is the sum of the first `k+1` contributions
`integrand·dt`, and the last running-sum entry equals `finalValue`. -/
theorem C10_integral_result_invariants (env : MathjsEnv) (contour : ContourEntry)
    (d : ContourIntegralData)
    (hres : computeContourIntegral env contour = some d) :
    d.tValues.length = d.contourPoints.length ∧
    d.tValues.length = d.integrandVectors.length ∧
    d.tValues.length = d.runningSum.length ∧
    1 ≤ d.tValues.length ∧
    (∀ k, k < d.runningSum.length →
      d.runningSum[k]? =
        some (listSumCP zeroCP
          ((d.integrandVectors.map fun v => complexScale v (dtOf contour)).take (k + 1)))) ∧
    d.runningSum[d.runningSum.length - 1]? = some d.finalValue := by
  obtain ⟨he, compiledGamma, compiledF, hg, hf⟩ :=
    computeContourIntegral_some_inv env contour d hres
  rw [computeContourIntegral_eq env contour compiledGamma compiledF he hg hf] at hres
  by_cases hs : (samplesOf compiledGamma compiledF contour).isEmpty = true
  · rw [if_pos hs] at hres
    exact absurd hres (by simp)
  · rw [if_neg hs] at hres
    injection hres with hd
    rw [← hd]
    have hne : samplesOf compiledGamma compiledF contour ≠ [] := by
      intro h
      exact hs (by simp [h])
    have hclen : (contribsOf compiledGamma compiledF contour).length =
        (samplesOf compiledGamma compiledF contour).length := by
      simp [contribsOf]
    have hmap : ((samplesOf compiledGamma compiledF contour).map (fun s => s.2.2)).map
        (fun v => complexScale v (dtOf contour)) =
        contribsOf compiledGamma compiledF contour := by
      simp [contribsOf, List.map_map]
    have hpos : 0 < (samplesOf compiledGamma compiledF contour).length :=
      List.length_pos.mpr hne
    refine ⟨by simp, by simp, ?_, ?_, ?_, ?_⟩
    · simp [cumSumsFrom_length, hclen]
    · simpa using hpos
    · intro k hk
      dsimp only at hk ⊢
      rw [hmap]
      have hk' : k < (contribsOf compiledGamma compiledF contour).length := by
        rw [hclen]
        rw [cumSumsFrom_length, hclen] at hk
        exact hk
      exact cumSumsFrom_getElem? zeroCP _ k hk'
    · dsimp only
      rw [cumSumsFrom_length]
      have hcpos : 0 < (contribsOf compiledGamma compiledF contour).length := by
        rw [hclen]
        exact hpos
      rw [cumSumsFrom_getElem? zeroCP _ _ (by omega)]
      rw [show (contribsOf compiledGamma compiledF contour).length - 1 + 1 =
        (contribsOf compiledGamma compiledF contour).length from by omega]
      rw [List.take_length]

/-- Witness for C10 at the concrete environment and contour entry. -/
theorem C10_witness :
    computeContourIntegral envW contourW = some dataW ∧
    dataW.tValues.length = dataW.contourPoints.length ∧
    1 ≤ dataW.tValues.length ∧
    dataW.runningSum[dataW.runningSum.length - 1]? = some dataW.finalValue := by
  have h := C10_integral_result_invariants envW contourW dataW computeW
  exact ⟨computeW, h.1, h.2.2.2.1, h.2.2.2.2.2⟩

/-! ## Claim C5: integrand default and the null cases -/

/-- C5: the integral engine defaults the integrand to the constant
function `1` when the transform expression is blank (replacing the blank
transform by the expression string `"1"` changes nothing), and it returns
`null` — as a value, not an exception, the function being total — exactly
when the curve expression is blank, when compiling the curve or the
(defaulted) integrand fails, or when zero samples survive the skipping
rules; otherwise the result is non-null. -/
theorem C5_default_integrand_and_null_cases (env : MathjsEnv) (entry : ContourEntry) :
    (isBlank entry.transformFunction = true →
      computeContourIntegral env entry =
        computeContourIntegral env { entry with transformFunction := "1" }) ∧
    (computeContourIntegral env entry = none ↔
      isBlank entry.expression = true ∨
      env.compileT entry.expression = none ∨
      env.compileZ (fExprOf entry) = none ∨
      ∃ compiledGamma compiledF,
        env.compileT entry.expression = some compiledGamma ∧
        env.compileZ (fExprOf entry) = some compiledF ∧
        samplesOf compiledGamma compiledF entry = []) := by
  constructor
  · intro htr
    have h1 : fExprOf { entry with transformFunction := "1" } = "1" := by
      unfold fExprOf
      split <;> rfl
    have h0 : fExprOf entry = "1" := by
      unfold fExprOf
      rw [if_pos htr]
    unfold computeContourIntegral dtOf
    rw [h0, h1]
  · by_cases hb : isBlank entry.expression = true
    · simp [computeContourIntegral, hb]
    · cases hg : env.compileT entry.expression with
      | none => simp [computeContourIntegral, hb, hg]
      | some compiledGamma =>
        cases hf : env.compileZ (fExprOf entry) with
        | none => simp [computeContourIntegral, hb, hg, hf]
        | some compiledF =>
          rw [computeContourIntegral_eq env entry compiledGamma compiledF
            (by simpa using hb) hg hf]
          by_cases hs : (samplesOf compiledGamma compiledF entry).isEmpty = true
          · rw [if_pos hs]
            exact iff_of_true rfl (Or.inr (Or.inr (Or.inr
              ⟨compiledGamma, compiledF, rfl, rfl, List.isEmpty_iff.mp hs⟩)))
          · rw [if_neg hs]
            refine iff_of_false (by simp) ?_
            rintro (h | h | h | ⟨cg, cf, hg', hf', hsam⟩)
            · exact hb h
            · exact Option.noConfusion h
            · exact Option.noConfusion h
            · injection hg' with hcg
              injection hf' with hcf
              rw [← hcg, ← hcf] at hsam
              rw [hsam] at hs
              exact hs rfl

/-- Witness for C5: with a blank transform at the concrete entry, the
engine computes the same result as with the explicit integrand `"1"`. -/
theorem C5_witness :
    computeContourIntegral envW contourW =
      computeContourIntegral envW { contourW with transformFunction := "1" } :=
  (C5_default_integrand_and_null_cases envW contourW).1 (by decide)

/-! ## Per-cell access to the generated grids -/

theorem domain_cellAt (env : MathjsEnv) (config : DomainColoringConfig) (compiled : ZClos)
    (he : isBlank config.expression = false)
    (hc : env.compileZ config.expression = some compiled)
    (j i : ℕ) (hj : j < config.resolution) (hi : i < config.resolution) :
    cellAt (generateDomainColoringData env config).z j i =
      some (domainCell compiled config.colorBy
        (config.xMin + i * ((config.xMax - config.xMin) / (max (config.resolution - 1) 1 : ℕ)))
        (config.yMin + j * ((config.yMax - config.yMin) / (max (config.resolution - 1) 1 : ℕ)))) ∧
    cellAt (generateDomainColoringData env config).colors j i =
      some (domainCell compiled config.colorBy
        (config.xMin + i * ((config.xMax - config.xMin) / (max (config.resolution - 1) 1 : ℕ)))
        (config.yMin + j * ((config.yMax - config.yMin) / (max (config.resolution - 1) 1 : ℕ)))) := by
  rw [generateDomainColoringData_eq env config compiled he hc]
  simp only [domainGrid]
  constructor
  · exact cellAt_map_range
      (fun j i => domainCell compiled config.colorBy
        (config.xMin + i * ((config.xMax - config.xMin) / (max (config.resolution - 1) 1 : ℕ)))
        (config.yMin + j * ((config.yMax - config.yMin) / (max (config.resolution - 1) 1 : ℕ))))
      config.resolution config.resolution j i hj hi
  · exact cellAt_map_range
      (fun j i => domainCell compiled config.colorBy
        (config.xMin + i * ((config.xMax - config.xMin) / (max (config.resolution - 1) 1 : ℕ)))
        (config.yMin + j * ((config.yMax - config.yMin) / (max (config.resolution - 1) 1 : ℕ))))
      config.resolution config.resolution j i hj hi

theorem surface_cellAt (env : MathjsEnv) (config : Surface3DConfig) (compiled : ZClos)
    (he : isBlank config.expression = false)
    (hc : env.compileZ config.expression = some compiled)
    (j i : ℕ) (hj : j < config.resolution) (hi : i < config.resolution) :
    cellAt (generateSurface3DData env config).z j i =
      some ((surfaceCellPair compiled config.heightBy config.colorBy
        (config.xMin + i * ((config.xMax - config.xMin) / (max (config.resolution - 1) 1 : ℕ)))
        (config.yMin + j * ((config.yMax - config.yMin) /
          (max (config.resolution - 1) 1 : ℕ)))).1) ∧
    cellAt (generateSurface3DData env config).colors j i =
      some ((surfaceCellPair compiled config.heightBy config.colorBy
        (config.xMin + i * ((config.xMax - config.xMin) / (max (config.resolution - 1) 1 : ℕ)))
        (config.yMin + j * ((config.yMax - config.yMin) /
          (max (config.resolution - 1) 1 : ℕ)))).2) := by
  rw [generateSurface3DData_eq env config compiled he hc]
  simp only [surfaceZGrid, surfaceColorsGrid]
  constructor
  · exact cellAt_map_range
      (fun j i => (surfaceCellPair compiled config.heightBy config.colorBy
        (config.xMin + i * ((config.xMax - config.xMin) / (max (config.resolution - 1) 1 : ℕ)))
        (config.yMin + j * ((config.yMax - config.yMin) /
          (max (config.resolution - 1) 1 : ℕ)))).1)
      config.resolution config.resolution j i hj hi
  · exact cellAt_map_range
      (fun j i => (surfaceCellPair compiled config.heightBy config.colorBy
        (config.xMin + i * ((config.xMax - config.xMin) / (max (config.resolution - 1) 1 : ℕ)))
        (config.yMin + j * ((config.yMax - config.yMin) /
          (max (config.resolution - 1) 1 : ℕ)))).2)
      config.resolution config.resolution j i hj hi

/-! ## Claim C3: grid shape and the explicit invalid marker -/

/-- C3: for domain-coloring and surface configurations with a non-blank,
compiling expression, the returned `z` and `colors` grids have exactly
`resolution` rows of exactly `resolution` entries; every cell is the
per-cell function of the compiled expression at that cell's point alone
(cells are never dropped, and a cell's value is unaffected by what the
expression does at other points); a cell whose evaluation throws, or whose
projected scalar is non-finite, holds the explicit invalid marker
(`FV.nonfin`, the model's `NaN`), which is distinct from every finite
value — in particular from a silent zero. -/
theorem C3_grid_shape_invalid_marker (env : MathjsEnv) (cfgD : DomainColoringConfig)
    (cfgS : Surface3DConfig) (fD fS : ZClos)
    (heD : isBlank cfgD.expression = false)
    (hcD : env.compileZ cfgD.expression = some fD)
    (heS : isBlank cfgS.expression = false)
    (hcS : env.compileZ cfgS.expression = some fS) :
    (generateDomainColoringData env cfgD).z.length = cfgD.resolution ∧
    (generateDomainColoringData env cfgD).colors.length = cfgD.resolution ∧
    (∀ row ∈ (generateDomainColoringData env cfgD).z, row.length = cfgD.resolution) ∧
    (∀ row ∈ (generateDomainColoringData env cfgD).colors, row.length = cfgD.resolution) ∧
    (generateSurface3DData env cfgS).z.length = cfgS.resolution ∧
    (generateSurface3DData env cfgS).colors.length = cfgS.resolution ∧
    (∀ row ∈ (generateSurface3DData env cfgS).z, row.length = cfgS.resolution) ∧
    (∀ row ∈ (generateSurface3DData env cfgS).colors, row.length = cfgS.resolution) ∧
    (∀ j i, j < cfgD.resolution → i < cfgD.resolution →
      cellAt (generateDomainColoringData env cfgD).z j i =
        some (domainCell fD cfgD.colorBy
          (cfgD.xMin + i * ((cfgD.xMax - cfgD.xMin) / (max (cfgD.resolution - 1) 1 : ℕ)))
          (cfgD.yMin + j * ((cfgD.yMax - cfgD.yMin) / (max (cfgD.resolution - 1) 1 : ℕ)))) ∧
      cellAt (generateDomainColoringData env cfgD).colors j i =
        some (domainCell fD cfgD.colorBy
          (cfgD.xMin + i * ((cfgD.xMax - cfgD.xMin) / (max (cfgD.resolution - 1) 1 : ℕ)))
          (cfgD.yMin + j * ((cfgD.yMax - cfgD.yMin) / (max (cfgD.resolution - 1) 1 : ℕ))))) ∧
    (∀ j i, j < cfgS.resolution → i < cfgS.resolution →
      cellAt (generateSurface3DData env cfgS).z j i =
        some ((surfaceCellPair fS cfgS.heightBy cfgS.colorBy
          (cfgS.xMin + i * ((cfgS.xMax - cfgS.xMin) / (max (cfgS.resolution - 1) 1 : ℕ)))
          (cfgS.yMin + j * ((cfgS.yMax - cfgS.yMin) /
            (max (cfgS.resolution - 1) 1 : ℕ)))).1) ∧
      cellAt (generateSurface3DData env cfgS).colors j i =
        some ((surfaceCellPair fS cfgS.heightBy cfgS.colorBy
          (cfgS.xMin + i * ((cfgS.xMax - cfgS.xMin) / (max (cfgS.resolution - 1) 1 : ℕ)))
          (cfgS.yMin + j * ((cfgS.yMax - cfgS.yMin) /
            (max (cfgS.resolution - 1) 1 : ℕ)))).2)) ∧
    (∀ (g : ZClos) (colorBy : String) (x y : ℝ),
      g { re := FV.fin x, im := FV.fin y } = none →
      domainCell g colorBy x y = FV.nonfin) ∧
    (∀ (g : ZClos) (colorBy : String) (x y : ℝ) (out : ComplexPoint),
      g { re := FV.fin x, im := FV.fin y } = some out →
      (getColorValue out colorBy).isFinite = false →
      domainCell g colorBy x y = FV.nonfin) ∧
    (∀ (g : ZClos) (hB cB : String) (x y : ℝ),
      g { re := FV.fin x, im := FV.fin y } = none →
      surfaceCellPair g hB cB x y = (FV.nonfin, FV.nonfin)) ∧
    (∀ (g₁ g₂ : ZClos) (colorBy : String) (x y : ℝ),
      g₁ { re := FV.fin x, im := FV.fin y } = g₂ { re := FV.fin x, im := FV.fin y } →
      domainCell g₁ colorBy x y = domainCell g₂ colorBy x y) ∧
    (∀ v : ℝ, FV.nonfin ≠ FV.fin v) := by
  have hD := generateDomainColoringData_eq env cfgD fD heD hcD
  have hS := generateSurface3DData_eq env cfgS fS heS hcS
  refine ⟨?_, ?_, ?_, ?_, ?_, ?_, ?_, ?_, ?_, ?_, ?_, ?_, ?_, ?_, ?_⟩
  · rw [hD]
    simp [domainGrid]
  · rw [hD]
    simp [domainGrid]
  · rw [hD]
    intro row hrow
    simp only [domainGrid, List.mem_map] at hrow
    obtain ⟨j, hj, rfl⟩ := hrow
    simp
  · rw [hD]
    intro row hrow
    simp only [domainGrid, List.mem_map] at hrow
    obtain ⟨j, hj, rfl⟩ := hrow
    simp
  · rw [hS]
    simp [surfaceZGrid]
  · rw [hS]
    simp [surfaceColorsGrid]
  · rw [hS]
    intro row hrow
    simp only [surfaceZGrid, List.mem_map] at hrow
    obtain ⟨j, hj, rfl⟩ := hrow
    simp
  · rw [hS]
    intro row hrow
    simp only [surfaceColorsGrid, List.mem_map] at hrow
    obtain ⟨j, hj, rfl⟩ := hrow
    simp
  · intro j i hj hi
    exact domain_cellAt env cfgD fD heD hcD j i hj hi
  · intro j i hj hi
    exact surface_cellAt env cfgS fS heS hcS j i hj hi
  · intro g colorBy x y hgn
    simp [domainCell, hgn]
  · intro g colorBy x y out hg hfin
    simp [domainCell, hg, hfin]
  · intro g hB cB x y hgn
    simp [surfaceCellPair, hgn]
  · intro g₁ g₂ colorBy x y hagree
    unfold domainCell
    rw [hagree]
  · intro v hv
    exact FV.noConfusion hv

/-- Witness for C3: at a concrete environment, configurations and
resolution 2, the domain and surface grids are square and the corner cell
holds the per-cell value. -/
theorem C3_witness :
    (generateDomainColoringData envW
      { expression := "z", xMin := 0, xMax := 1, yMin := 0, yMax := 1, resolution := 2
        colorBy := "real" }).z.length = 2 ∧
    (∀ row ∈ (generateDomainColoringData envW
      { expression := "z", xMin := 0, xMax := 1, yMin := 0, yMax := 1, resolution := 2
        colorBy := "real" }).z, row.length = 2) := by
  have h := C3_grid_shape_invalid_marker envW
    { expression := "z", xMin := 0, xMax := 1, yMin := 0, yMax := 1, resolution := 2
      colorBy := "real" }
    { expression := "z", xMin := 0, xMax := 1, yMin := 0, yMax := 1, resolution := 2
      heightBy := "real", colorBy := "imaginary" }
    fW fW (by decide) rfl (by decide) rfl
  exact ⟨h.1, h.2.2.1⟩

/-! ## Claim C4: cells hold the requested projection of the evaluation -/

/-- C4: in both grid generators, the cell at row `j`, column `i` is
computed from `f` evaluated at the complex point
`(xMin + i·dx) + i(yMin + j·dy)` with `dx = (xMax−xMin)/max(resolution−1,1)`
and `dy` analogous, in row-major order: when the evaluation succeeds with
value `out` and the requested projection of `out` is finite, the
domain-coloring cell holds exactly `getColorValue out colorBy`; and in the
surface variant the height and color cells are the two (marked)
projections of the same single evaluated value `out` — one evaluation per
cell feeding both grids. -/
theorem C4_cells_are_projections (env : MathjsEnv) (cfgD : DomainColoringConfig)
    (cfgS : Surface3DConfig) (fD fS : ZClos)
    (heD : isBlank cfgD.expression = false)
    (hcD : env.compileZ cfgD.expression = some fD)
    (heS : isBlank cfgS.expression = false)
    (hcS : env.compileZ cfgS.expression = some fS) :
    (∀ j i, j < cfgD.resolution → i < cfgD.resolution →
      ∀ out : ComplexPoint,
        fD { re := FV.fin (cfgD.xMin + i *
              ((cfgD.xMax - cfgD.xMin) / (max (cfgD.resolution - 1) 1 : ℕ)))
             im := FV.fin (cfgD.yMin + j *
              ((cfgD.yMax - cfgD.yMin) / (max (cfgD.resolution - 1) 1 : ℕ))) } = some out →
        (getColorValue out cfgD.colorBy).isFinite = true →
        cellAt (generateDomainColoringData env cfgD).z j i =
          some (getColorValue out cfgD.colorBy) ∧
        cellAt (generateDomainColoringData env cfgD).colors j i =
          some (getColorValue out cfgD.colorBy)) ∧
    (∀ j i, j < cfgS.resolution → i < cfgS.resolution →
      ∀ out : ComplexPoint,
        fS { re := FV.fin (cfgS.xMin + i *
              ((cfgS.xMax - cfgS.xMin) / (max (cfgS.resolution - 1) 1 : ℕ)))
             im := FV.fin (cfgS.yMin + j *
              ((cfgS.yMax - cfgS.yMin) / (max (cfgS.resolution - 1) 1 : ℕ))) } = some out →
        cellAt (generateSurface3DData env cfgS).z j i =
          some (if (getColorValue out cfgS.heightBy).isFinite then
            getColorValue out cfgS.heightBy else FV.nonfin) ∧
        cellAt (generateSurface3DData env cfgS).colors j i =
          some (if (getColorValue out cfgS.colorBy).isFinite then
            getColorValue out cfgS.colorBy else FV.nonfin)) := by
  constructor
  · intro j i hj hi out hout hfin
    have h := domain_cellAt env cfgD fD heD hcD j i hj hi
    rw [h.1, h.2]
    unfold domainCell
    rw [hout]
    dsimp only
    rw [if_pos hfin]
    exact ⟨rfl, rfl⟩
  · intro j i hj hi out hout
    have h := surface_cellAt env cfgS fS heS hcS j i hj hi
    rw [h.1, h.2]
    unfold surfaceCellPair
    rw [hout]
    exact ⟨rfl, rfl⟩

/-- Witness for C4 at a concrete environment (constant evaluation `1`),
configuration and cell `(0, 0)` with the `real` projection. -/
theorem C4_witness :
    cellAt (generateDomainColoringData envW
      { expression := "z", xMin := 0, xMax := 1, yMin := 0, yMax := 1, resolution := 2
        colorBy := "real" }).z 0 0 =
      some (getColorValue { re := FV.fin 1, im := FV.fin 0 } "real") ∧
    cellAt (generateDomainColoringData envW
      { expression := "z", xMin := 0, xMax := 1, yMin := 0, yMax := 1, resolution := 2
        colorBy := "real" }).colors 0 0 =
      some (getColorValue { re := FV.fin 1, im := FV.fin 0 } "real") :=
  (C4_cells_are_projections envW
    { expression := "z", xMin := 0, xMax := 1, yMin := 0, yMax := 1, resolution := 2
      colorBy := "real" }
    { expression := "z", xMin := 0, xMax := 1, yMin := 0, yMax := 1, resolution := 2
      heightBy := "real", colorBy := "imaginary" }
    fW fW (by decide) rfl (by decide) rfl).1 0 0 (by decide) (by decide)
    { re := FV.fin 1, im := FV.fin 0 } rfl rfl

/-! ## Claim C6: failure propagation and containment -/

/-- C6: a compile failure of the whole expression empties the result of
each operation — empty point list for the contour sampler, empty grids for
domain coloring and surface, `null` for the integral — and no exception
reaches the caller (the operations are total functions); while a
per-sample or per-cell evaluation failure is contained: a contour sample
depends only on the evaluations at its own parameter (two curves agreeing
at every other step give identical per-step samples there), and a grid
cell depends only on the evaluation at its own point (two compiled
expressions agreeing everywhere except one cell give equal values at every
other cell). -/
theorem C6_failure_containment (env env₁ env₂ : MathjsEnv)
    (expression transformFunction : String) (tMin tMax : ℝ) (tSteps : ℕ)
    (cfgD : DomainColoringConfig) (cfgS : Surface3DConfig) (entry : ContourEntry) :
    (env.compileT expression = none →
      evaluateSingleContour env expression transformFunction tMin tMax tSteps = []) ∧
    (env.compileZ cfgD.expression = none →
      generateDomainColoringData env cfgD = { z := [], colors := [] }) ∧
    (env.compileZ cfgS.expression = none →
      generateSurface3DData env cfgS = { x := [], y := [], z := [], colors := [] }) ∧
    (env.compileT entry.expression = none → computeContourIntegral env entry = none) ∧
    (∀ (γ₁ γ₂ : TClos) (tr : Option ZClos) (s : ℕ),
      (∀ step : ℕ, step < tSteps → step ≠ s →
        γ₁ (tMin + step * ((tMax - tMin) / (max (tSteps - 1) 1 : ℕ))) =
          γ₂ (tMin + step * ((tMax - tMin) / (max (tSteps - 1) 1 : ℕ)))) →
      ∀ step : ℕ, step < tSteps → step ≠ s →
        contourStep γ₁ tr (tMin + step * ((tMax - tMin) / (max (tSteps - 1) 1 : ℕ))) =
          contourStep γ₂ tr (tMin + step * ((tMax - tMin) / (max (tSteps - 1) 1 : ℕ)))) ∧
    (∀ (f₁ f₂ : ZClos) (i₀ j₀ : ℕ),
      isBlank cfgD.expression = false →
      env₁.compileZ cfgD.expression = some f₁ →
      env₂.compileZ cfgD.expression = some f₂ →
      (∀ i j : ℕ, i < cfgD.resolution → j < cfgD.resolution → ¬(i = i₀ ∧ j = j₀) →
        f₁ (ComplexPoint.mk
            (FV.fin (cfgD.xMin + i *
              ((cfgD.xMax - cfgD.xMin) / (max (cfgD.resolution - 1) 1 : ℕ))))
            (FV.fin (cfgD.yMin + j *
              ((cfgD.yMax - cfgD.yMin) / (max (cfgD.resolution - 1) 1 : ℕ))))) =
          f₂ (ComplexPoint.mk
            (FV.fin (cfgD.xMin + i *
              ((cfgD.xMax - cfgD.xMin) / (max (cfgD.resolution - 1) 1 : ℕ))))
            (FV.fin (cfgD.yMin + j *
              ((cfgD.yMax - cfgD.yMin) / (max (cfgD.resolution - 1) 1 : ℕ)))))) →
      ∀ i j : ℕ, i < cfgD.resolution → j < cfgD.resolution → ¬(i = i₀ ∧ j = j₀) →
        cellAt (generateDomainColoringData env₁ cfgD).z j i =
          cellAt (generateDomainColoringData env₂ cfgD).z j i ∧
        cellAt (generateDomainColoringData env₁ cfgD).colors j i =
          cellAt (generateDomainColoringData env₂ cfgD).colors j i) := by
  refine ⟨?_, ?_, ?_, ?_, ?_, ?_⟩
  · intro hc
    unfold evaluateSingleContour
    by_cases hb : isBlank expression = true
    · rw [if_pos hb]
    · rw [if_neg hb, hc]
  · intro hc
    unfold generateDomainColoringData
    by_cases hb : isBlank cfgD.expression = true
    · rw [if_pos hb]
    · rw [if_neg hb, hc]
  · intro hc
    unfold generateSurface3DData
    by_cases hb : isBlank cfgS.expression = true
    · rw [if_pos hb]
    · rw [if_neg hb, hc]
  · intro hc
    unfold computeContourIntegral
    by_cases hb : isBlank entry.expression = true
    · rw [if_pos hb]
    · rw [if_neg hb, hc]
  · intro γ₁ γ₂ tr s hagree step hstep hne
    unfold contourStep
    rw [hagree step hstep hne]
  · intro f₁ f₂ i₀ j₀ he h1 h2 hagree i j hi hj hne
    have c₁ := domain_cellAt env₁ cfgD f₁ he h1 j i hj hi
    have c₂ := domain_cellAt env₂ cfgD f₂ he h2 j i hj hi
    constructor
    · rw [c₁.1, c₂.1]
      unfold domainCell
      rw [hagree i j hi hj hne]
    · rw [c₁.2, c₂.2]
      unfold domainCell
      rw [hagree i j hi hj hne]

/-- Witness for C6: with a compiler that throws on the whole expression,
the contour sampler returns the empty list and the integral engine returns
`null` at concrete inputs. -/
theorem C6_witness :
    evaluateSingleContour parseFailEnv "t" "" 0 1 3 = [] ∧
    computeContourIntegral parseFailEnv contourW = none := by
  have h := C6_failure_containment parseFailEnv parseFailEnv parseFailEnv "t" "" 0 1 3
    { expression := "z", xMin := 0, xMax := 1, yMin := 0, yMax := 1, resolution := 2
      colorBy := "real" }
    { expression := "z", xMin := 0, xMax := 1, yMin := 0, yMax := 1, resolution := 2
      heightBy := "real", colorBy := "imaginary" }
    contourW
  exact ⟨h.1 rfl, h.2.2.2.1 rfl⟩

end ComplexPlot
